import Mathlib

/-!
Verification of the retrieval-and-generation core of the ai-search-engine
repository against its natural-language specification.

The repository ships its AWS CDK infrastructure in TypeScript
(`infra/cdk/lib/constructs/*.ts`); those definitions are embedded below
directly from the source.  The Python application services
(`services/search_api/app/...`) referenced by the CDK Docker asset are not
part of the source tree available here, so the chunker, vector index,
retriever, conversation store, prompt builder and orchestrator are modelled
from the specification's words; each such definition carries a doc comment
starting `Modelled from the spec:`.
-/

set_option autoImplicit false

namespace Infra

/-- DynamoDB attribute types used by the CDK tables
(`dynamodb.AttributeType.STRING` in the source). -/
inductive AttributeType where
  | string
  | number
  | binary
deriving DecidableEq

/-- A DynamoDB key attribute definition, as in
`{ name: 'document_id', type: dynamodb.AttributeType.STRING }`. -/
structure AttributeDefinition where
  name : String
  attributeType : AttributeType
deriving DecidableEq

/-- DynamoDB billing modes (`dynamodb.BillingMode`). -/
inductive BillingMode where
  | payPerRequest
  | provisioned
deriving DecidableEq

/-- CDK removal policies (`cdk.RemovalPolicy`). -/
inductive RemovalPolicy where
  | destroy
  | retain
deriving DecidableEq

/-- The table properties set by `infra/cdk/lib/constructs/dynamodb-tables.ts`.
`timeToLiveAttribute` is the CDK `timeToLiveAttribute` property; when a table
definition omits it (as all three tables in the source do), the deployed table
has no TTL attribute, which is rendered here as `none`. -/
structure TableProps where
  tableName : String
  partitionKey : AttributeDefinition
  sortKey : Option AttributeDefinition
  billingMode : BillingMode
  removalPolicy : RemovalPolicy
  pointInTimeRecoveryEnabled : Bool
  timeToLiveAttribute : Option String
deriving DecidableEq

/-- Embedding of the `DocumentsTable` construct
(`dynamodb-tables.ts`, lines 20-31). -/
def documentsTable : TableProps :=
  { tableName := "ai-search-documents"
    partitionKey := { name := "document_id", attributeType := .string }
    sortKey := none
    billingMode := .payPerRequest
    removalPolicy := .destroy
    pointInTimeRecoveryEnabled := false
    timeToLiveAttribute := none }

/-- Embedding of the `ChunksTable` construct
(`dynamodb-tables.ts`, lines 33-49). -/
def chunksTable : TableProps :=
  { tableName := "document_chunks"
    partitionKey := { name := "document_id", attributeType := .string }
    sortKey := some { name := "chunk_id", attributeType := .string }
    billingMode := .payPerRequest
    removalPolicy := .destroy
    pointInTimeRecoveryEnabled := false
    timeToLiveAttribute := none }

/-- Embedding of the `ConversationsTable` construct
(`dynamodb-tables.ts`, lines 52-63). -/
def conversationsTable : TableProps :=
  { tableName := "conversations"
    partitionKey := { name := "conversation_id", attributeType := .string }
    sortKey := none
    billingMode := .payPerRequest
    removalPolicy := .destroy
    pointInTimeRecoveryEnabled := false
    timeToLiveAttribute := none }

/-- DynamoDB's service-side TTL deletion only ever runs for a table that
names a TTL attribute: a table with `timeToLiveAttribute = none` never has
records expired or deleted by the store itself. -/
def tableExpiresRecordsItself (t : TableProps) : Prop :=
  ∃ attr, t.timeToLiveAttribute = some attr

instance (t : TableProps) : Decidable (tableExpiresRecordsItself t) :=
  decidable_of_iff (t.timeToLiveAttribute.isSome = true)
    (by simp [tableExpiresRecordsItself, Option.isSome_iff_exists])

/-- IAM effect of a policy statement (`iam.Effect`). -/
inductive Effect where
  | allow
  | deny
deriving DecidableEq

/-- An IAM policy statement as constructed by
`new iam.PolicyStatement({...})` in `search-lambda.ts`. -/
structure PolicyStatement where
  effect : Effect
  actions : List String
  resources : List String
deriving DecidableEq

/-- Embedding of the Bedrock policy statement added to the Lambda execution
role (`search-lambda.ts`, lines 105-112): effect ALLOW, the two invoke
actions, and resources `['*']`. -/
def bedrockPolicyStatement : PolicyStatement :=
  { effect := .allow
    actions := ["bedrock:InvokeModel", "bedrock:InvokeModelWithResponseStream"]
    resources := ["*"] }

/-- The single model configured for the application
(`search-lambda.ts`, line 89, environment variable `BEDROCK_MODEL_ID`). -/
def BEDROCK_MODEL_ID : String := "anthropic.claude-3-5-haiku-20241022-v1:0"

/-- IAM resource matching for patterns appearing in this stack: the
wildcard `*` matches every resource, any other pattern matches only
itself. -/
def resourceMatches (pattern resource : String) : Bool :=
  if pattern = "*" then true else pattern = resource

/-- A statement allows an action on a resource when its effect is ALLOW,
the action is listed, and some resource pattern matches the resource. -/
def statementAllows (s : PolicyStatement) (action resource : String) : Prop :=
  s.effect = .allow ∧ action ∈ s.actions ∧
    ∃ p ∈ s.resources, resourceMatches p resource = true

end Infra

namespace Core

/-- Modelled from the spec: the Chunker's window loop
(`chunk(document_text, chunk_size, overlap)` in §4.1, realized by the missing
`services/search_api` text chunker).  Starting from `start`, while text
remains, emit the window `text[start : start + chunkSize]` (truncated to the
remainder) together with its start position, then advance the start by
`step = chunkSize - overlap` characters. -/
def chunkFrom (text : List Char) (chunkSize step start : Nat) :
    List (List Char × Nat) :=
  if h : step ≠ 0 ∧ start < text.length then
    ((text.drop start).take chunkSize, start) ::
      chunkFrom text chunkSize step (start + step)
  else
    []
termination_by text.length - start
decreasing_by
  simp only [ne_eq] at h
  omega

/-- Modelled from the spec: `chunk(document_text, chunk_size=300, overlap=50)`
produces the ordered sequence of overlapping windows beginning at
position 0, windows advancing by `chunk_size - overlap` characters (§4.1). -/
def chunk (text : List Char) (chunkSize overlap : Nat) :
    List (List Char × Nat) :=
  chunkFrom text chunkSize (chunkSize - overlap) 0

/-- Modelled from the spec: one entry of the in-memory VectorIndex (§4.3):
chunk id, back-reference to the owning document, the chunk content kept as
metadata, and the embedding vector.  Embedding coordinates are modelled as
exact rationals standing for the floating-point values.  Entries are kept in
insertion order, which is the tie-break order for search. -/
structure IndexEntry where
  chunkId : String
  documentId : String
  documentTitle : String
  content : String
  embedding : List ℚ
deriving DecidableEq

/-- Modelled from the spec: the in-memory exact-search VectorIndex (§4.3),
its entries listed in insertion order. -/
structure VectorIndex where
  entries : List IndexEntry
deriving DecidableEq

/-- Modelled from the spec: squared Euclidean (L2) distance between two
embedding vectors (§4.3); lower is better. -/
def sqDist (a b : List ℚ) : ℚ :=
  (List.zipWith (fun x y => (x - y) ^ 2) a b).sum

/-- Modelled from the spec: one search hit returned by `VectorIndex.search`
(§4.3): `(chunk_id, distance, metadata)`. -/
structure SearchHit where
  chunkId : String
  documentId : String
  documentTitle : String
  content : String
  distance : ℚ
deriving DecidableEq

/-- The empty vector index. -/
def VectorIndex.empty : VectorIndex := ⟨[]⟩

/-- Modelled from the spec: `add(chunk_id, embedding, metadata)` appends a
new entry at the end of the insertion-ordered entry list (§4.3). -/
def VectorIndex.add (idx : VectorIndex)
    (chunkId documentId documentTitle content : String)
    (embedding : List ℚ) : VectorIndex :=
  ⟨idx.entries ++ [⟨chunkId, documentId, documentTitle, content, embedding⟩]⟩

/-- Modelled from the spec: `remove(document_id)` removes all chunks of a
document from the index (§4.3). -/
def VectorIndex.remove (idx : VectorIndex) (documentId : String) :
    VectorIndex :=
  ⟨idx.entries.filter (fun e => e.documentId ≠ documentId)⟩

/-- Insert an entry into a list already ranked by ascending distance from
`q`, placing it before the first entry of strictly greater or equal-rank
later origin; used to rank entries stably. -/
def rankInsert (q : List ℚ) (e : IndexEntry) :
    List IndexEntry → List IndexEntry
  | [] => [e]
  | f :: fs =>
      if sqDist q e.embedding ≤ sqDist q f.embedding then e :: f :: fs
      else f :: rankInsert q e fs

/-- Modelled from the spec: rank the index entries by ascending squared
Euclidean distance from the query embedding, ties broken by insertion order
(stable) (§4.3).  Implemented as a stable insertion sort over the
insertion-ordered entry list. -/
def rankEntries (q : List ℚ) : List IndexEntry → List IndexEntry
  | [] => []
  | e :: es => rankInsert q e (rankEntries q es)

/-- Modelled from the spec: `search(query_embedding, top_k)` performs an
exact, exhaustive scan and returns the `top_k` entries ranked ascending by
squared L2 distance, ties broken by insertion order (§4.3). -/
def VectorIndex.search (idx : VectorIndex) (q : List ℚ) (topK : Nat) :
    List SearchHit :=
  ((rankEntries q idx.entries).take topK).map
    (fun e =>
      ⟨e.chunkId, e.documentId, e.documentTitle, e.content,
        sqDist q e.embedding⟩)

/-- Modelled from the spec: a retrieval-time Source (§3), a tagged variant
with `type ∈ {document, web}`: document sources carry `document_id`,
`document_title`, `content` and a score on the document scale; web sources
carry `url`, `title`, `content` and the provider's score. -/
inductive Source where
  | document (documentId documentTitle content : String) (score : ℚ)
  | web (url title content : String) (score : ℚ)
deriving DecidableEq

/-- Whether a source is web-typed. -/
def Source.isWeb : Source → Bool
  | .document _ _ _ _ => false
  | .web _ _ _ _ => true

/-- A ranked web snippet as returned by the WebSearchClient collaborator
(§6): `{title, url, content, score}`. -/
structure WebResult where
  title : String
  url : String
  content : String
  score : ℚ
deriving DecidableEq

/-- Modelled from the spec: the WebSearchClient collaborator (§6), a call
`search(query, max_results)` that either returns ranked snippets or fails. -/
def WebClient : Type := String → Nat → Except String (List WebResult)

/-- Modelled from the spec: the Embedder collaborator (§4.2), converting
text into a fixed-dimension vector; modelled as a pure function. -/
def Embedder : Type := String → List ℚ

/-- Modelled from the spec: turn a vector-index search hit into a
document-typed Source; with squared L2 distance lower-is-better, the
document-scale score is the negated distance so that higher means more
relevant on the document scale. -/
def hitToSource (h : SearchHit) : Source :=
  .document h.documentId h.documentTitle h.content (-h.distance)

/-- Modelled from the spec: Step 1 of `retrieve` (§4.4) — embed the query
and take the `top_k_documents` nearest chunks as document sources, ordered
by ascending distance. -/
def docSources (idx : VectorIndex) (embed : Embedder) (query : String)
    (topKDocuments : Nat) : List Source :=
  (idx.search (embed query) topKDocuments).map hitToSource

/-- Modelled from the spec: Step 2 of `retrieve` (§4.4) — if `include_web`
is true, call `WebSearchClient.search(query, top_k_web)`; on failure, log
and continue with document sources only (graceful degradation). -/
def webSources (web : WebClient) (query : String) (includeWeb : Bool)
    (topKWeb : Nat) : List Source :=
  if includeWeb then
    match web query topKWeb with
    | .ok ws => (ws.take topKWeb).map (fun w => .web w.url w.title w.content w.score)
    | .error _ => []
  else
    []

/-- Modelled from the spec: `retrieve(query, top_k_documents, include_web,
top_k_web)` (§4.4) — merge by simple concatenation, document sources
preceding web sources. -/
def retrieve (idx : VectorIndex) (web : WebClient) (embed : Embedder)
    (query : String) (topKDocuments : Nat) (includeWeb : Bool)
    (topKWeb : Nat) : List Source :=
  docSources idx embed query topKDocuments ++
    webSources web query includeWeb topKWeb

/-- Message roles (§3). -/
inductive Role where
  | user
  | assistant
deriving DecidableEq

/-- Modelled from the spec: one conversation message (§3):
`Message{role, content, timestamp}`. -/
structure Message where
  role : Role
  content : String
  timestamp : Nat
deriving DecidableEq

/-- Modelled from the spec: one stored conversation record (§3):
`conversation_id`, ordered messages, `created_at`, `updated_at`,
`expires_at` (TTL).  Timestamps are epoch seconds modelled as naturals. -/
structure ConversationRec where
  conversationId : String
  messages : List Message
  createdAt : Nat
  updatedAt : Nat
  expiresAt : Nat
deriving DecidableEq

/-- Modelled from the spec: the durable ConversationStore (§4.5); the
record list is the physical storage, which may still hold expired
records. -/
structure ConvStore where
  records : List ConversationRec
deriving DecidableEq

/-- Errors surfaced by the conversation store (§7). -/
inductive ConvError where
  | notFound
deriving DecidableEq

/-- Modelled from the spec: the fixed retention window of the conversation
TTL ("now + fixed retention window", §4.5); the repository documents a
15-day retention, in seconds. -/
def retentionWindow : Nat := 15 * 86400

/-- Find the physical record of a conversation id, expired or not. -/
def ConvStore.find (s : ConvStore) (id : String) : Option ConversationRec :=
  s.records.find? (fun r => r.conversationId = id)

/-- Modelled from the spec: `load(conversation_id)` (§4.5) — returns the
ordered messages, or NotFound when the id is unknown, or when the record's
`expires_at` is in the past even though the record is still physically
present. -/
def ConvStore.load (s : ConvStore) (now : Nat) (id : String) :
    Except ConvError (List Message) :=
  match s.find id with
  | none => .error .notFound
  | some r => if r.expiresAt < now then .error .notFound else .ok r.messages

/-- Modelled from the spec: `append(conversation_id, user_message,
assistant_message)` (§4.5) — record the turn as an atomic pair and refresh
`expires_at` to now plus the fixed retention window; a turn under an id with
no physical record creates the record.  Appending is the only write, so
every write refreshes the TTL. -/
def ConvStore.appendTurn (s : ConvStore) (now : Nat) (id : String)
    (userContent assistantContent : String) : ConvStore :=
  let userMsg : Message := ⟨.user, userContent, now⟩
  let assistantMsg : Message := ⟨.assistant, assistantContent, now⟩
  match s.find id with
  | some _ =>
      ⟨s.records.map (fun r =>
        if r.conversationId = id then
          { r with
            messages := r.messages ++ [userMsg, assistantMsg]
            updatedAt := now
            expiresAt := now + retentionWindow }
        else r)⟩
  | none =>
      ⟨s.records ++
        [⟨id, [userMsg, assistantMsg], now, now, now + retentionWindow⟩]⟩

/-- Last `n` elements of a list, in order. -/
def lastN {α : Type} (n : Nat) (l : List α) : List α :=
  l.drop (l.length - n)

/-- Modelled from the spec: `list_recent(conversation_id, n)` (§4.5) — the
last `n` messages in chronological order; an unknown or expired
conversation yields no history. -/
def ConvStore.list_recent (s : ConvStore) (now : Nat) (id : String)
    (n : Nat) : List Message :=
  match s.load now id with
  | .ok msgs => lastN n msgs
  | .error _ => []

/-- Modelled from the spec: the configured bound on prompt history
("bounded (e.g., last 5 turns)", §4.5); one turn is a user/assistant
message pair. -/
def maxHistoryTurns : Nat := 5

/-- Modelled from the spec: the assembled prompt (§4.6), carrying the
grounding instructions, the typed sources, the bounded recent history and
the current query. -/
structure Prompt where
  instructions : String
  sources : List Source
  history : List Message
  query : String
deriving DecidableEq

/-- Modelled from the spec: the explicit grounding instructions that §4.6
requires in every prompt. -/
def groundingInstructions : String :=
  "Answer only from the provided sources; if none are relevant, say you cannot answer."

/-- Modelled from the spec: `PromptBuilder.build(query, sources,
recent_history)` (§4.6). -/
def buildPrompt (sources : List Source) (recentHistory : List Message)
    (query : String) : Prompt :=
  ⟨groundingInstructions, sources, recentHistory, query⟩

/-- Modelled from the spec: the Generator collaborator boundary (§4.7) —
a single synchronous call that returns the answer text or fails with a
GenerationUnavailable provider error. -/
def Generator : Type := Prompt → Except String String

/-- Errors of the request state machine (§7). -/
inductive RagError where
  | generationUnavailable (msg : String)
deriving DecidableEq

/-- The orchestrator's successful chat response (§6):
`{answer, conversation_id, sources}`. -/
structure ChatResult where
  answer : String
  conversationId : String
  sources : List Source
deriving DecidableEq

/-- Modelled from the spec: the bounded history the orchestrator feeds to
the PromptBuilder — the most recent `maxHistoryTurns` turns, i.e. the last
`2 * maxHistoryTurns` messages (§4.5). -/
def chatHistory (store : ConvStore) (now : Nat) (id : String) :
    List Message :=
  store.list_recent now id (2 * maxHistoryTurns)

/-- Modelled from the spec: the prompt built for one chat turn — retrieved
sources, bounded recent history, and the query (§4.6, §4.8). -/
def chatPromptOf (idx : VectorIndex) (web : WebClient) (embed : Embedder)
    (store : ConvStore) (now : Nat) (id query : String)
    (topKDocuments : Nat) (includeWeb : Bool) (topKWeb : Nat) : Prompt :=
  buildPrompt (retrieve idx web embed query topKDocuments includeWeb topKWeb)
    (chatHistory store now id) query

/-- Modelled from the spec: the orchestrator's `chat` flow (§4.8, §6):
Retrieving (and optional WebSearching) → PromptBuilding → Generating →
Persisting.  Persisting happens only after a successful generation; a
failed generation returns the typed error and leaves the store unchanged. -/
def chat (idx : VectorIndex) (web : WebClient) (embed : Embedder)
    (gen : Generator) (store : ConvStore) (now : Nat) (freshId : String)
    (query : String) (conversationId : Option String) (topKDocuments : Nat)
    (includeWeb : Bool) (topKWeb : Nat) :
    Except RagError ChatResult × ConvStore :=
  let cid := conversationId.getD freshId
  let sources := retrieve idx web embed query topKDocuments includeWeb topKWeb
  let prompt :=
    chatPromptOf idx web embed store now cid query topKDocuments includeWeb
      topKWeb
  match gen prompt with
  | .error m => (.error (.generationUnavailable m), store)
  | .ok answer =>
      (.ok ⟨answer, cid, sources⟩, store.appendTurn now cid query answer)

/-- Modelled from the spec: a chunk record in the authoritative chunk
store (§3, §6). -/
structure ChunkRec where
  chunkId : String
  documentId : String
  content : String
  sequenceIndex : Nat
deriving DecidableEq

/-- Modelled from the spec: a document record in the authoritative
document store (§3, §6). -/
structure DocumentRec where
  documentId : String
  title : String
  fullText : String
deriving DecidableEq

/-- Modelled from the spec: the state touched by document deletion — the
authoritative document and chunk stores plus the derived vector index. -/
structure CorpusState where
  documents : List DocumentRec
  chunks : List ChunkRec
  index : VectorIndex
deriving DecidableEq

/-- Modelled from the spec: `delete_document(document_id)` (§6) — deletion
cascades from the document to its chunks and to its vector-index
entries. -/
def delete_document (s : CorpusState) (documentId : String) : CorpusState :=
  { documents := s.documents.filter (fun d => d.documentId ≠ documentId)
    chunks := s.chunks.filter (fun c => c.documentId ≠ documentId)
    index := s.index.remove documentId }

/-- Concrete fixture: a web client whose calls always fail. -/
def failingWeb : WebClient := fun _ _ => .error "web search unavailable"

/-- Concrete fixture: a generator that always answers. -/
def constGen : Generator := fun _ => .ok "the answer"

/-- Concrete fixture: a generator whose provider is always down. -/
def failingGen : Generator := fun _ => .error "llm down"

/-- Concrete fixture: a one-dimensional embedder. -/
def constEmbed : Embedder := fun _ => [1]

/-- Concrete fixture: an index holding one chunk of document `d1`. -/
def exampleIndex : VectorIndex :=
  VectorIndex.empty.add "c1" "d1" "Doc One" "chunk one" [1]

/-- Concrete fixture: a two-document corpus with one chunk each, both
indexed. -/
def exampleCorpus : CorpusState :=
  { documents := [⟨"d1", "Doc One", "full one"⟩, ⟨"d2", "Doc Two", "full two"⟩]
    chunks := [⟨"c1", "d1", "chunk one", 0⟩, ⟨"c2", "d2", "chunk two", 0⟩]
    index := ⟨[⟨"c1", "d1", "Doc One", "chunk one", [0]⟩,
      ⟨"c2", "d2", "Doc Two", "chunk two", [1]⟩]⟩ }

end Core

namespace Core

/-- Unfolding equation of the chunker's window loop. -/
theorem chunkFrom_eq (text : List Char) (cs step start : Nat) :
    chunkFrom text cs step start =
      if step ≠ 0 ∧ start < text.length then
        ((text.drop start).take cs, start) ::
          chunkFrom text cs step (start + step)
      else [] := by
  rw [chunkFrom]
  by_cases h : step ≠ 0 ∧ start < text.length
  · rw [dif_pos h, if_pos h]
  · rw [dif_neg h, if_neg h]

/-- The window emitted at position `i` of the chunker's loop starts
`i * step` characters after the loop's starting offset and holds the
`cs`-truncated remainder of the text from there. -/
theorem chunkFrom_getElem (text : List Char) (cs step : Nat) :
    ∀ (i start : Nat), i < (chunkFrom text cs step start).length →
      (chunkFrom text cs step start)[i]? =
        some ((text.drop (start + i * step)).take cs, start + i * step) := by
  intro i
  induction i with
  | zero =>
      intro start hi
      rw [chunkFrom_eq] at hi ⊢
      by_cases h : step ≠ 0 ∧ start < text.length
      · rw [if_pos h]
        simp
      · rw [if_neg h] at hi
        simp at hi
  | succ n ih =>
      intro start hi
      rw [chunkFrom_eq] at hi ⊢
      by_cases h : step ≠ 0 ∧ start < text.length
      · rw [if_pos h] at hi ⊢
        rw [List.getElem?_cons_succ]
        have hrec := ih (start + step) (by simpa using hi)
        rw [hrec]
        have harith : start + step + n * step = start + (n + 1) * step := by
          ring
        rw [harith]
      · rw [if_neg h] at hi
        simp at hi

theorem mem_rankInsert {q : List ℚ} {e x : IndexEntry}
    {l : List IndexEntry} : x ∈ rankInsert q e l ↔ x = e ∨ x ∈ l := by
  induction l with
  | nil => simp [rankInsert]
  | cons f fs ih =>
      rw [rankInsert]
      by_cases h : sqDist q e.embedding ≤ sqDist q f.embedding
      · rw [if_pos h]
        simp only [List.mem_cons]
      · rw [if_neg h]
        simp only [List.mem_cons, ih]
        tauto

theorem mem_rankEntries {q : List ℚ} {x : IndexEntry} {l : List IndexEntry} :
    x ∈ rankEntries q l ↔ x ∈ l := by
  induction l with
  | nil => simp [rankEntries]
  | cons e es ih =>
      simp only [rankEntries, mem_rankInsert, List.mem_cons, ih]

theorem length_rankInsert {q : List ℚ} {e : IndexEntry}
    {l : List IndexEntry} :
    (rankInsert q e l).length = l.length + 1 := by
  induction l with
  | nil => simp [rankInsert]
  | cons f fs ih =>
      rw [rankInsert]
      by_cases h : sqDist q e.embedding ≤ sqDist q f.embedding
      · rw [if_pos h]
        simp
      · rw [if_neg h]
        simp [ih]

theorem length_rankEntries {q : List ℚ} {l : List IndexEntry} :
    (rankEntries q l).length = l.length := by
  induction l with
  | nil => rfl
  | cons e es ih => simp [rankEntries, length_rankInsert, ih]

/-- The ranking produced by `rankInsert` stays sorted by ascending
distance. -/
theorem sorted_rankInsert {q : List ℚ} {e : IndexEntry} {l : List IndexEntry}
    (hl : l.Pairwise
      (fun a b => sqDist q a.embedding ≤ sqDist q b.embedding)) :
    (rankInsert q e l).Pairwise
      (fun a b => sqDist q a.embedding ≤ sqDist q b.embedding) := by
  induction l with
  | nil => simp [rankInsert]
  | cons f fs ih =>
      rcases List.pairwise_cons.mp hl with ⟨hf, hfs⟩
      rw [rankInsert]
      by_cases h : sqDist q e.embedding ≤ sqDist q f.embedding
      · rw [if_pos h]
        refine List.pairwise_cons.mpr ⟨?_, hl⟩
        intro b hb
        rcases List.mem_cons.mp hb with rfl | hb
        · exact h
        · exact le_trans h (hf b hb)
      · rw [if_neg h]
        refine List.pairwise_cons.mpr ⟨?_, ih hfs⟩
        intro b hb
        rcases mem_rankInsert.mp hb with rfl | hb
        · exact le_of_not_le h
        · exact hf b hb

theorem sorted_rankEntries {q : List ℚ} {l : List IndexEntry} :
    (rankEntries q l).Pairwise
      (fun a b => sqDist q a.embedding ≤ sqDist q b.embedding) := by
  induction l with
  | nil => simp [rankEntries]
  | cons e es ih => exact sorted_rankInsert ih

/-- A vector is at squared distance zero from itself. -/
theorem sqDist_self (a : List ℚ) : sqDist a a = 0 := by
  induction a with
  | nil => rfl
  | cons x xs ih =>
      simp only [sqDist, List.zipWith, List.sum_cons] at ih ⊢
      rw [ih]
      ring

/-- Squared distance is nonnegative. -/
theorem sqDist_nonneg (a b : List ℚ) : 0 ≤ sqDist a b := by
  induction a generalizing b with
  | nil => simp [sqDist]
  | cons x xs ih =>
      cases b with
      | nil => simp [sqDist]
      | cons y ys =>
          have := ih ys
          simp only [sqDist, List.zipWith, List.sum_cons] at this ⊢
          have hx : (0 : ℚ) ≤ (x - y) ^ 2 := sq_nonneg _
          linarith

/-- Two equal-dimension vectors at squared distance zero are equal. -/
theorem eq_of_sqDist_eq_zero {a b : List ℚ} (hlen : a.length = b.length)
    (h : sqDist a b = 0) : a = b := by
  induction a generalizing b with
  | nil =>
      cases b with
      | nil => rfl
      | cons y ys => simp at hlen
  | cons x xs ih =>
      cases b with
      | nil => simp at hlen
      | cons y ys =>
          have h2 : 0 ≤ sqDist xs ys := sqDist_nonneg xs ys
          have h1 : (0 : ℚ) ≤ (x - y) ^ 2 := sq_nonneg _
          have hsum : (x - y) ^ 2 + sqDist xs ys = 0 := by
            simpa [sqDist, List.zipWith] using h
          have hhead : (x - y) ^ 2 = 0 := by linarith
          have htail : sqDist xs ys = 0 := by linarith
          have hx : x = y := by
            have hz : x - y = 0 := sq_eq_zero_iff.mp hhead
            linarith
          have hxs : xs = ys := ih (by simpa using hlen) htail
          rw [hx, hxs]

/-- Search returns exactly `min top_k corpus` hits: the whole corpus is
scanned and only the cap shortens the result. -/
theorem length_search (idx : VectorIndex) (q : List ℚ) (k : Nat) :
    (idx.search q k).length = min k idx.entries.length := by
  simp [VectorIndex.search, length_rankEntries]

/-- Every search hit originates at an index entry, keeping that entry's
document id. -/
theorem search_hit_mem_entries {idx : VectorIndex} {q : List ℚ} {k : Nat}
    {hit : SearchHit} (hmem : hit ∈ idx.search q k) :
    ∃ e ∈ idx.entries, hit.documentId = e.documentId := by
  unfold VectorIndex.search at hmem
  rcases List.mem_map.mp hmem with ⟨e, he, rfl⟩
  exact ⟨e, mem_rankEntries.mp (List.take_subset _ _ he), rfl⟩

/-- Search results are ranked ascending by distance. -/
theorem search_sorted (idx : VectorIndex) (q : List ℚ) (k : Nat) :
    (idx.search q k).Pairwise (fun a b => a.distance ≤ b.distance) := by
  unfold VectorIndex.search
  rw [List.pairwise_map]
  exact (sorted_rankEntries.sublist (List.take_sublist _ _))

/-- Document sources are never web-typed. -/
theorem docSources_not_web (idx : VectorIndex) (embed : Embedder)
    (query : String) (kd : Nat) :
    ∀ s ∈ docSources idx embed query kd, s.isWeb = false := by
  intro s hs
  rcases List.mem_map.mp hs with ⟨h, _, rfl⟩
  rfl

/-- Web sources are always web-typed. -/
theorem webSources_web (web : WebClient) (query : String) (iw : Bool)
    (kw : Nat) : ∀ s ∈ webSources web query iw kw, s.isWeb = true := by
  intro s hs
  unfold webSources at hs
  rcases iw with _ | _
  · simp at hs
  · rcases hw : web query kw with m | ws <;> rw [hw] at hs <;> simp at hs
    rcases List.mem_map.mp (List.take_subset _ _ hs) with ⟨w, _, rfl⟩
    rfl

/-- The web part of a merge never exceeds its cap. -/
theorem webSources_length_le (web : WebClient) (query : String) (iw : Bool)
    (kw : Nat) : (webSources web query iw kw).length ≤ kw := by
  unfold webSources
  rcases iw with _ | _
  · simp
  · rcases hw : web query kw with m | ws
    · simp
    · simp only [if_true, List.length_map, List.length_take]
      omega

/-- A failing web client contributes no sources: the merge degrades to the
document sources alone. -/
theorem webSources_of_error {web : WebClient} {query : String} {kw : Nat}
    {m : String} (hw : web query kw = .error m) (iw : Bool) :
    webSources web query iw kw = [] := by
  unfold webSources
  rcases iw with _ | _
  · rfl
  · rw [hw]
    simp

/-- Every write through `appendTurn` leaves a record for the written id
whose `expiresAt` is refreshed to now plus the retention window, whether the
record already existed or the turn created it. -/
theorem appendTurn_find (s : ConvStore) (now : Nat) (id u a : String) :
    ∃ r', (s.appendTurn now id u a).find id = some r' ∧
      r'.expiresAt = now + retentionWindow ∧ r'.conversationId = id := by
  unfold ConvStore.appendTurn
  cases hf : s.find id with
  | none =>
      refine ⟨⟨id, [⟨.user, u, now⟩, ⟨.assistant, a, now⟩], now, now,
        now + retentionWindow⟩, ?_, rfl, rfl⟩
      unfold ConvStore.find at hf ⊢
      rw [List.find?_append, hf]
      simp
  | some r =>
      have hp : r.conversationId = id := by
        have := List.find?_some hf
        simpa using this
      refine ⟨{ r with
          messages := r.messages ++ [⟨.user, u, now⟩, ⟨.assistant, a, now⟩]
          updatedAt := now
          expiresAt := now + retentionWindow }, ?_, rfl, hp⟩
      unfold ConvStore.find at hf ⊢
      rw [List.find?_map]
      have hcomp :
          (fun r0 => decide (r0.conversationId = id)) ∘
            (fun r0 : ConversationRec =>
              if r0.conversationId = id then
                { r0 with
                  messages :=
                    r0.messages ++ [⟨.user, u, now⟩, ⟨.assistant, a, now⟩]
                  updatedAt := now
                  expiresAt := now + retentionWindow }
              else r0) =
          fun r0 => decide (r0.conversationId = id) := by
        funext r0
        by_cases h0 : r0.conversationId = id
        · simp [h0]
        · simp [h0]
      rw [hcomp, hf]
      simp [hp]

/-- The bounded read-side window keeps at most `n` messages. -/
theorem lastN_length_le {α : Type} (n : Nat) (l : List α) :
    (lastN n l).length ≤ n := by
  unfold lastN
  rw [List.length_drop]
  omega

/-- `list_recent` is bounded by its requested window. -/
theorem list_recent_length_le (s : ConvStore) (now : Nat) (id : String)
    (n : Nat) : (s.list_recent now id n).length ≤ n := by
  unfold ConvStore.list_recent
  cases s.load now id with
  | ok msgs => exact lastN_length_le n msgs
  | error e => simp

end Core

/-- C1: a conversation whose `expires_at` timestamp is in the past is
treated as NotFound by `load`, even though the record is still physically
present in storage; and every write to a conversation refreshes
`expires_at` to now plus the fixed retention window. -/
theorem c1_conversation_ttl (s : Core.ConvStore) (now : Nat) (id : String)
    (r : Core.ConversationRec) (hfind : s.find id = some r)
    (hexp : r.expiresAt < now) :
    s.load now id = .error .notFound ∧
    ∀ u a, ∃ r', (s.appendTurn now id u a).find id = some r' ∧
      r'.expiresAt = now + Core.retentionWindow := by
  constructor
  · unfold Core.ConvStore.load
    rw [hfind]
    simp [hexp]
  · intro u a
    obtain ⟨r', h1, h2, _⟩ := Core.appendTurn_find s now id u a
    exact ⟨r', h1, h2⟩

/-- Witness for C1 at a concrete store: a record expired at time 10 is
NotFound when loaded at time 20, and a write at time 20 refreshes its
`expires_at` to 20 plus the retention window. -/
theorem c1_witness :
    (⟨[⟨"conv1", [], 0, 0, 10⟩]⟩ : Core.ConvStore).load 20 "conv1"
        = .error .notFound ∧
    ∃ r', ((⟨[⟨"conv1", [], 0, 0, 10⟩]⟩ : Core.ConvStore).appendTurn
        20 "conv1" "q" "ans").find "conv1" = some r' ∧
      r'.expiresAt = 20 + Core.retentionWindow :=
  have h := c1_conversation_ttl ⟨[⟨"conv1", [], 0, 0, 10⟩]⟩ 20 "conv1"
    ⟨"conv1", [], 0, 0, 10⟩ (by rfl) (by norm_num)
  ⟨h.1, h.2 "q" "ans"⟩

/-- C8: regardless of how many prior turns a conversation contains, the
prompt built for a chat turn carries at most the configured number of
most-recent turns of history (`maxHistoryTurns` turns, i.e. twice that many
messages); in particular a 50-turn conversation contributes exactly the 10
most recent of its 100 messages, never all of them. -/
theorem c8_history_bounded :
    (∀ (store : Core.ConvStore) (now : Nat) (id : String)
        (idx : Core.VectorIndex) (web : Core.WebClient)
        (embed : Core.Embedder) (query : String) (kd : Nat) (iw : Bool)
        (kw : Nat),
      (Core.chatPromptOf idx web embed store now id query kd iw
          kw).history.length ≤ 2 * Core.maxHistoryTurns) ∧
    (Core.chatHistory
        ⟨[⟨"c", (List.range 100).map (fun i => ⟨.user, "m", i⟩), 0, 0,
          1000⟩]⟩ 5 "c").length = 10 := by
  constructor
  · intro store now id idx web embed query kd iw kw
    have : (Core.chatPromptOf idx web embed store now id query kd iw
        kw).history = Core.chatHistory store now id := rfl
    rw [this]
    exact Core.list_recent_length_le store now id (2 * Core.maxHistoryTurns)
  · unfold Core.chatHistory Core.ConvStore.list_recent Core.ConvStore.load
      Core.ConvStore.find
    simp [Core.lastN, Core.maxHistoryTurns]

/-- C2, counterexample: with `chunk_size = 300` and `overlap = 50`, a
620-character document yields windows of 300, 300 and 120 characters at
positions 0, 250 and 500 — no window has the 70 characters the claim
asserts for the tail chunk. -/
theorem c2_counterexample :
    (Core.chunk (List.replicate 620 'a') 300 50).map
        (fun p => (p.1.length, p.2)) = [(300, 0), (300, 250), (120, 500)] ∧
    ∀ p ∈ Core.chunk (List.replicate 620 'a') 300 50, p.1.length ≠ 70 := by
  have hmap :
      (Core.chunk (List.replicate 620 'a') 300 50).map
        (fun p => (p.1.length, p.2)) =
        [(300, 0), (300, 250), (120, 500)] := by
    unfold Core.chunk
    rw [Core.chunkFrom_eq, Core.chunkFrom_eq, Core.chunkFrom_eq,
      Core.chunkFrom_eq]
    norm_num [List.length_replicate, List.drop_replicate,
      List.take_replicate]
  refine ⟨hmap, ?_⟩
  intro p hp
  have hmem : (p.1.length, p.2) ∈ [(300, 0), (300, 250), (120, 500)] := by
    rw [← hmap]
    exact List.mem_map_of_mem _ hp
  simp only [List.mem_cons, List.not_mem_nil, or_false] at hmem
  rcases hmem with h | h | h <;>
    · have := congrArg Prod.fst h
      simp at this
      omega

/-- C2, amended: for every document text, `chunk(text, chunk_size,
overlap)` with `overlap < chunk_size` produces windows whose start
positions advance by `chunk_size - overlap` characters, each window the
`chunk_size`-truncated remainder of the text at its start; with
`chunk_size = 300` and `overlap = 50`, a 620-character document yields
exactly two full 300-character chunks and one 120-character tail chunk,
with windows starting at positions 0, 250 and 500. -/
theorem c2_chunk_windows (text : List Char) (chunkSize overlap : Nat)
    (hov : overlap < chunkSize) :
    (∀ i, i < (Core.chunk text chunkSize overlap).length →
      (Core.chunk text chunkSize overlap)[i]? =
        some ((text.drop (i * (chunkSize - overlap))).take chunkSize,
          i * (chunkSize - overlap))) ∧
    (Core.chunk (List.replicate 620 'a') 300 50).map
        (fun p => (p.1.length, p.2)) = [(300, 0), (300, 250), (120, 500)] := by
  constructor
  · intro i hi
    unfold Core.chunk at hi ⊢
    have := Core.chunkFrom_getElem text chunkSize (chunkSize - overlap) i 0 hi
    simpa using this
  · unfold Core.chunk
    rw [Core.chunkFrom_eq, Core.chunkFrom_eq, Core.chunkFrom_eq,
      Core.chunkFrom_eq]
    norm_num [List.length_replicate, List.drop_replicate,
      List.take_replicate]

/-- Witness for C2 at a concrete input: `overlap = 50` is admissible for
`chunk_size = 300`, and the 620-character document then chunks into
windows of 300, 300 and 120 characters at positions 0, 250 and 500. -/
theorem c2_witness :
    50 < 300 ∧
    (Core.chunk (List.replicate 620 'a') 300 50).map
        (fun p => (p.1.length, p.2)) = [(300, 0), (300, 250), (120, 500)] :=
  ⟨by norm_num,
    (c2_chunk_windows (List.replicate 620 'a') 300 50 (by norm_num)).2⟩

/-- C3: when the web search client always fails, retrieval with
`include_web = true` still succeeds using only document sources, with no
web-typed entries, and the chat operation built on it still returns a
result whose sources are exactly the document sources. -/
theorem c3_web_degradation (idx : Core.VectorIndex) (embed : Core.Embedder)
    (gen : Core.Generator) (store : Core.ConvStore) (now : Nat)
    (freshId query : String) (conversationId : Option String) (kd kw : Nat)
    (web : Core.WebClient)
    (hfail : ∀ q k, ∃ m, web q k = .error m)
    (hgen : ∀ p, ∃ a, gen p = .ok a) :
    Core.retrieve idx web embed query kd true kw
        = Core.docSources idx embed query kd ∧
    (∀ s ∈ Core.retrieve idx web embed query kd true kw,
      s.isWeb = false) ∧
    ∃ res store2,
      Core.chat idx web embed gen store now freshId query conversationId kd
          true kw = (.ok res, store2) ∧
      res.sources = Core.docSources idx embed query kd ∧
      ∀ s ∈ res.sources, s.isWeb = false := by
  obtain ⟨m, hm⟩ := hfail query kw
  have hweb : Core.webSources web query true kw = [] :=
    Core.webSources_of_error hm true
  have hret : Core.retrieve idx web embed query kd true kw
      = Core.docSources idx embed query kd := by
    unfold Core.retrieve
    rw [hweb, List.append_nil]
  refine ⟨hret, ?_, ?_⟩
  · intro s hs
    rw [hret] at hs
    exact Core.docSources_not_web idx embed query kd s hs
  · obtain ⟨a, ha⟩ := hgen (Core.chatPromptOf idx web embed store now
      (conversationId.getD freshId) query kd true kw)
    refine ⟨⟨a, conversationId.getD freshId,
        Core.retrieve idx web embed query kd true kw⟩,
      store.appendTurn now (conversationId.getD freshId) query a,
      ?_, ?_, ?_⟩
    · unfold Core.chat
      simp only [ha]
    · simpa using hret
    · intro s hs
      simp only at hs
      rw [hret] at hs
      exact Core.docSources_not_web idx embed query kd s hs

/-- C4: when the generation step fails, the chat flow returns the typed
generation error with no partial answer and the conversation store is left
unchanged — no user or assistant message is persisted; persistence happens
only after a successful generation. -/
theorem c4_generation_failure_no_persist (idx : Core.VectorIndex)
    (web : Core.WebClient) (embed : Core.Embedder) (gen : Core.Generator)
    (store : Core.ConvStore) (now : Nat) (freshId query : String)
    (conversationId : Option String) (kd : Nat) (iw : Bool) (kw : Nat)
    (m : String)
    (hfail : gen (Core.chatPromptOf idx web embed store now
        (conversationId.getD freshId) query kd iw kw) = .error m) :
    Core.chat idx web embed gen store now freshId query conversationId kd iw
        kw = (.error (.generationUnavailable m), store) := by
  unfold Core.chat
  simp only [hfail]

/-- C5: the merged retrieval result is the concatenation of the document
sources (ranked ascending by distance, never web-typed) followed by the web
sources (web-typed, in provider order); the combined list is capped at
`top_k_documents + top_k_web` entries, and the document part always holds
`min top_k_documents corpus` entries regardless of how plentiful the web
results are. -/
theorem c5_merge_order (idx : Core.VectorIndex) (web : Core.WebClient)
    (embed : Core.Embedder) (query : String) (kd : Nat) (iw : Bool)
    (kw : Nat) :
    Core.retrieve idx web embed query kd iw kw
        = Core.docSources idx embed query kd ++
          Core.webSources web query iw kw ∧
    (Core.retrieve idx web embed query kd iw kw).length ≤ kd + kw ∧
    (Core.docSources idx embed query kd).length
        = min kd idx.entries.length ∧
    (idx.search (embed query) kd).Pairwise
      (fun a b => a.distance ≤ b.distance) ∧
    (∀ s ∈ Core.docSources idx embed query kd, s.isWeb = false) ∧
    (∀ s ∈ Core.webSources web query iw kw, s.isWeb = true) := by
  have hdoc : (Core.docSources idx embed query kd).length
      = min kd idx.entries.length := by
    unfold Core.docSources
    rw [List.length_map]
    exact Core.length_search idx (embed query) kd
  refine ⟨rfl, ?_, hdoc, Core.search_sorted idx (embed query) kd,
    Core.docSources_not_web idx embed query kd,
    Core.webSources_web web query iw kw⟩
  have h2 := Core.webSources_length_le web query iw kw
  have h1 : (Core.docSources idx embed query kd).length ≤ kd := by
    rw [hdoc]
    omega
  show (Core.docSources idx embed query kd ++
      Core.webSources web query iw kw).length ≤ kd + kw
  rw [List.length_append]
  omega

/-- C6: after `delete_document(id)`, no search over the vector index
returns a hit of that document, and the deletion has cascaded to the
document record, its chunks and its index entries. -/
theorem c6_delete_cascade (s : Core.CorpusState) (docId : String)
    (q : List ℚ) (k : Nat) :
    (∀ hit ∈ (Core.delete_document s docId).index.search q k,
      hit.documentId ≠ docId) ∧
    (∀ c ∈ (Core.delete_document s docId).chunks,
      c.documentId ≠ docId) ∧
    (∀ d ∈ (Core.delete_document s docId).documents,
      d.documentId ≠ docId) ∧
    (∀ e ∈ (Core.delete_document s docId).index.entries,
      e.documentId ≠ docId) := by
  have hidx : ∀ e ∈ (Core.delete_document s docId).index.entries,
      e.documentId ≠ docId := by
    intro e he
    unfold Core.delete_document Core.VectorIndex.remove at he
    simp only at he
    have hmem := List.mem_filter.mp he
    simpa using hmem.2
  refine ⟨?_, ?_, ?_, hidx⟩
  · intro hit hmem
    obtain ⟨e, he, heq⟩ := Core.search_hit_mem_entries hmem
    rw [heq]
    exact hidx e he
  · intro c hc
    unfold Core.delete_document at hc
    simp only at hc
    have hmem := List.mem_filter.mp hc
    simpa using hmem.2
  · intro d hd
    unfold Core.delete_document at hd
    simp only at hd
    have hmem := List.mem_filter.mp hd
    simpa using hmem.2

/-- C9: the CDK definition of the conversations DynamoDB table, and likewise
the documents and chunks tables, configures no time-to-live attribute, so
the deployed store never physically expires or deletes records on its own;
any conversation-expiry behaviour has to live in application read logic. -/
theorem c9_no_ttl_attribute :
    Infra.documentsTable.timeToLiveAttribute = none ∧
    Infra.chunksTable.timeToLiveAttribute = none ∧
    Infra.conversationsTable.timeToLiveAttribute = none ∧
    ¬ Infra.tableExpiresRecordsItself Infra.documentsTable ∧
    ¬ Infra.tableExpiresRecordsItself Infra.chunksTable ∧
    ¬ Infra.tableExpiresRecordsItself Infra.conversationsTable := by
  refine ⟨rfl, rfl, rfl, ?_, ?_, ?_⟩ <;> decide

/-- C10: the Lambda execution role's Bedrock policy statement grants
`bedrock:InvokeModel` and `bedrock:InvokeModelWithResponseStream` on every
resource, so the generator boundary permits invoking any Bedrock model, not
only the single configured `BEDROCK_MODEL_ID`. -/
theorem c10_bedrock_wildcard :
    (∀ modelArn : String,
      Infra.statementAllows Infra.bedrockPolicyStatement
        "bedrock:InvokeModel" modelArn ∧
      Infra.statementAllows Infra.bedrockPolicyStatement
        "bedrock:InvokeModelWithResponseStream" modelArn) ∧
    ∃ other : String, other ≠ Infra.BEDROCK_MODEL_ID ∧
      Infra.statementAllows Infra.bedrockPolicyStatement
        "bedrock:InvokeModel" other := by
  constructor
  · intro modelArn
    constructor
    · exact ⟨rfl, by simp [Infra.bedrockPolicyStatement],
        "*", by simp [Infra.bedrockPolicyStatement], rfl⟩
    · exact ⟨rfl, by simp [Infra.bedrockPolicyStatement],
        "*", by simp [Infra.bedrockPolicyStatement], rfl⟩
  · refine ⟨"amazon.nova-micro-v1:0", by decide, rfl, ?_, "*", ?_, rfl⟩
    · simp [Infra.bedrockPolicyStatement]
    · simp [Infra.bedrockPolicyStatement]

/-- C7, counterexample: when a chunk is added whose embedding duplicates an
earlier entry's embedding, searching that embedding with `top_k = 1`
returns the earlier chunk (ties break by insertion order), not the chunk
just added — the universally stated round-trip fails. -/
theorem c7_counterexample :
    ((Core.VectorIndex.empty.add "c1" "d" "t" "x" [(1 : ℚ)]).add "c2" "d"
        "t" "x" [(1 : ℚ)]).search [(1 : ℚ)] 1
      = [⟨"c1", "d", "t", "x", 0⟩] ∧ ("c1" : String) ≠ "c2" := by
  constructor
  · norm_num [Core.VectorIndex.search, Core.VectorIndex.add,
      Core.VectorIndex.empty, Core.rankEntries, Core.rankInsert,
      Core.sqDist]
  · decide

/-- C7, amended: adding a chunk to an index none of whose entries carry the
same embedding (all embeddings of the query's dimension), then searching
that same embedding with `top_k = 1`, returns exactly that chunk with
distance 0; ranking is ascending by squared Euclidean distance with ties
broken by insertion order. -/
theorem c7_roundtrip (idx : Core.VectorIndex)
    (cid did title content : String) (v : List ℚ)
    (hdim : ∀ e ∈ idx.entries, e.embedding.length = v.length)
    (hfresh : ∀ e ∈ idx.entries, e.embedding ≠ v) :
    (idx.add cid did title content v).search v 1
      = [⟨cid, did, title, content, 0⟩] := by
  set c : Core.IndexEntry := ⟨cid, did, title, content, v⟩ with hc
  have hpos : ∀ e ∈ idx.entries, 0 < Core.sqDist v e.embedding := by
    intro e he
    rcases lt_or_eq_of_le (Core.sqDist_nonneg v e.embedding) with h | h
    · exact h
    · exact absurd
        (Core.eq_of_sqDist_eq_zero (hdim e he).symm h.symm).symm
        (hfresh e he)
  have hentries : (idx.add cid did title content v).entries
      = idx.entries ++ [c] := rfl
  unfold Core.VectorIndex.search
  rw [hentries]
  cases hR : Core.rankEntries v (idx.entries ++ [c]) with
  | nil =>
      exfalso
      have hcmem : c ∈ Core.rankEntries v (idx.entries ++ [c]) :=
        Core.mem_rankEntries.mpr (by simp)
      rw [hR] at hcmem
      simp at hcmem
  | cons h t =>
      have hsorted :=
        Core.sorted_rankEntries (q := v) (l := idx.entries ++ [c])
      rw [hR] at hsorted
      have hhead := List.pairwise_cons.mp hsorted
      have hhmem : h ∈ idx.entries ++ [c] := by
        have hx : h ∈ Core.rankEntries v (idx.entries ++ [c]) := by
          rw [hR]
          exact List.mem_cons_self h t
        exact Core.mem_rankEntries.mp hx
      have hcmem : c ∈ h :: t := by
        have hx : c ∈ Core.rankEntries v (idx.entries ++ [c]) :=
          Core.mem_rankEntries.mpr (by simp)
        rw [hR] at hx
        exact hx
      have hhc : h = c := by
        rcases List.mem_append.mp hhmem with hin | hone
        · exfalso
          have hgt := hpos h hin
          have hne : h ≠ c := by
            intro he
            exact hfresh h hin (by rw [he])
          have hct : c ∈ t := by
            rcases List.mem_cons.mp hcmem with he | ht
            · exact absurd he.symm hne
            · exact ht
          have hle := hhead.1 c hct
          have hzero : Core.sqDist v c.embedding = 0 := by
            have hcv : c.embedding = v := rfl
            rw [hcv]
            exact Core.sqDist_self v
          rw [hzero] at hle
          exact absurd hle (not_le.mpr hgt)
        · simpa using hone
      rw [hhc]
      have hcv : c.embedding = v := rfl
      simp [hcv, Core.sqDist_self]

/-- Witness for C7 at a concrete index: adding a chunk with the fresh
embedding `[1]` to an index holding only the embedding `[0]`, then
searching `[1]` with `top_k = 1`, returns the added chunk at distance 0. -/
theorem c7_witness :
    ((Core.VectorIndex.empty.add "c1" "d1" "t1" "x1" [(0 : ℚ)]).add "c2"
        "d2" "t2" "x2" [(1 : ℚ)]).search [(1 : ℚ)] 1
      = [⟨"c2", "d2", "t2", "x2", 0⟩] :=
  c7_roundtrip (Core.VectorIndex.empty.add "c1" "d1" "t1" "x1" [(0 : ℚ)])
    "c2" "d2" "t2" "x2" [(1 : ℚ)] (by decide) (by decide)

/-- Witness for C3: with a failing web client and an always-answering
generator at a concrete index, retrieval with web enabled equals the
document sources, and chat still returns a successful result with those
sources. -/
theorem c3_witness :
    Core.retrieve Core.exampleIndex Core.failingWeb Core.constEmbed "q" 5
        true 3 = Core.docSources Core.exampleIndex Core.constEmbed "q" 5 ∧
    ∃ res store2,
      Core.chat Core.exampleIndex Core.failingWeb Core.constEmbed
          Core.constGen ⟨[]⟩ 0 "fresh" "q" none 5 true 3
        = (.ok res, store2) ∧
      res.sources = Core.docSources Core.exampleIndex Core.constEmbed "q" 5 ∧
      ∀ s ∈ res.sources, s.isWeb = false :=
  have h := c3_web_degradation Core.exampleIndex Core.constEmbed
    Core.constGen ⟨[]⟩ 0 "fresh" "q" none 5 3 Core.failingWeb
    (fun _ _ => ⟨"web search unavailable", rfl⟩)
    (fun _ => ⟨"the answer", rfl⟩)
  ⟨h.1, h.2.2⟩

/-- Witness for C4: a failing generator at a concrete store yields the
typed generation error and the store is returned unchanged. -/
theorem c4_witness :
    Core.chat Core.exampleIndex Core.failingWeb Core.constEmbed
        Core.failingGen ⟨[]⟩ 0 "fresh" "q" none 5 true 3
      = (.error (.generationUnavailable "llm down"),
          (⟨[]⟩ : Core.ConvStore)) :=
  c4_generation_failure_no_persist Core.exampleIndex Core.failingWeb
    Core.constEmbed Core.failingGen ⟨[]⟩ 0 "fresh" "q" none 5 true 3
    "llm down" rfl

/-- Witness for C5 at a concrete retrieval: the merge is the document part
followed by the web part, capped by the two configured counts, with the
document part holding `min top_k corpus` entries. -/
theorem c5_witness :
    Core.retrieve Core.exampleIndex Core.failingWeb Core.constEmbed "q" 2
        true 3
      = Core.docSources Core.exampleIndex Core.constEmbed "q" 2 ++
        Core.webSources Core.failingWeb "q" true 3 ∧
    (Core.retrieve Core.exampleIndex Core.failingWeb Core.constEmbed "q" 2
        true 3).length ≤ 2 + 3 ∧
    (Core.docSources Core.exampleIndex Core.constEmbed "q" 2).length
      = min 2 Core.exampleIndex.entries.length :=
  have h := c5_merge_order Core.exampleIndex Core.failingWeb
    Core.constEmbed "q" 2 true 3
  ⟨h.1, h.2.1, h.2.2.1⟩

/-- Witness for C6 at the concrete corpus: after deleting document `d1`,
the chunk of `d2` is still returned by search and indeed does not belong
to `d1`. -/
theorem c6_witness :
    (⟨"c2", "d2", "Doc Two", "chunk two", 0⟩ : Core.SearchHit)
        ∈ (Core.delete_document Core.exampleCorpus "d1").index.search
          [(1 : ℚ)] 5 ∧
    (⟨"c2", "d2", "Doc Two", "chunk two", 0⟩ :
        Core.SearchHit).documentId ≠ "d1" := by
  have hsearch : (Core.delete_document Core.exampleCorpus "d1").index.search
      [(1 : ℚ)] 5 = [⟨"c2", "d2", "Doc Two", "chunk two", 0⟩] := by
    norm_num [Core.delete_document, Core.exampleCorpus,
      Core.VectorIndex.remove, Core.VectorIndex.search, Core.rankEntries,
      Core.rankInsert, Core.sqDist]
  constructor
  · rw [hsearch]
    exact List.mem_singleton.mpr rfl
  · exact (c6_delete_cascade Core.exampleCorpus "d1" [(1 : ℚ)] 5).1 _
      (by rw [hsearch]; exact List.mem_singleton.mpr rfl)
